import Mathlib

/- Formal model of the oval-package-parser repository.

   parser.go is translated function by function: strings are modelled as
   List Char, the Go scanner loop over lines becomes a fold of a step
   function over a list of lines, and the three compiled regular
   expressions of NewParser are translated into executable matching
   functions that reproduce the leftmost-first, greedy submatch semantics
   of the Go regexp package on exactly those three patterns.

   main.go contributes the fix-version evaluator isPackageFixed. Its two
   version orderings come from external libraries (knqyf263/go-deb-version
   and knqyf263/go-rpm-version) that are not part of this repository, so
   those orderings are modelled from the specification text instead. -/

namespace OvalModel

/-- Go unicode.IsSpace, as used by strings.TrimSpace in parser.go:
whitespace characters of the Unicode White_Space property. -/
def goSpace (c : Char) : Bool :=
  ([9, 10, 11, 12, 13, 32, 0x85, 0xA0, 0x1680, 0x2028, 0x2029,
    0x202F, 0x205F, 0x3000] : List Nat).contains c.toNat
  || (decide (0x2000 ≤ c.toNat) && decide (c.toNat ≤ 0x200A))

/-- Drop leading whitespace, as the left half of strings.TrimSpace. -/
def trimLeft : List Char → List Char
  | [] => []
  | c :: cs => if goSpace c then trimLeft cs else c :: cs

/-- Drop trailing whitespace, as the right half of strings.TrimSpace. -/
def trimRight (l : List Char) : List Char :=
  (trimLeft l.reverse).reverse

/-- strings.TrimSpace from parser.go, line 151. -/
def trim (l : List Char) : List Char :=
  trimRight (trimLeft l)

/-- The character class matched by the Go regexp escape backslash-s,
which is exactly tab, newline, form feed, carriage return and space. -/
def reSpace (c : Char) : Bool :=
  (c == ' ') || (c == '\t') || (c == '\n') || (c == Char.ofNat 12) || (c == '\r')

/-- OSDistro from parser.go is an integer type; keeping the integer
representation keeps values outside the four named constants expressible. -/
abbrev OSDistro := Nat

def DistroUnknown : OSDistro := 0

def DistroUbuntu : OSDistro := 1

def DistroAzureLinux : OSDistro := 2

def DistroMariner : OSDistro := 3

/-- OSPackage from parser.go. -/
structure OSPackage where
  name : List Char
  version : List Char

deriving instance DecidableEq for OSPackage

/-- ContainerImage from parser.go. -/
structure ContainerImage where
  name : List Char

deriving instance DecidableEq for ContainerImage

/-- The osReleaseData map of Parse. Only the five recognized keys are ever
stored, so the map is modelled as five optional fields. -/
structure OSReleaseData where
  nameField : Option (List Char)
  versionIDField : Option (List Char)
  versionField : Option (List Char)
  prettyNameField : Option (List Char)
  idField : Option (List Char)

deriving instance DecidableEq for OSReleaseData

def emptyOSData : OSReleaseData := ⟨none, none, none, none, none⟩

/-- Go map lookup of a possibly missing key yields the empty string. -/
def mapLookup (o : Option (List Char)) : List Char := o.getD []

/-- len(osReleaseData) > 0 from parser.go: the map has an entry exactly
when one of the five recognized keys has been stored. -/
def osDataNonempty (d : OSReleaseData) : Bool :=
  d.nameField.isSome || d.versionIDField.isSome || d.versionField.isSome
    || d.prettyNameField.isSome || d.idField.isSome

/- ------------------------------------------------------------------ -/
/- The Ubuntu/APT package regular expression of NewParser:
   an anchored pattern taking the name before the first slash, then a
   greedy gap up to a literal ",now", then whitespace, the version token,
   more whitespace, one more token, whitespace and a bracketed status. -/

/-- One mandatory whitespace gap: at least one regexp-whitespace character,
then greedily all following whitespace. -/
def dropSpacesOne : List Char → Option (List Char)
  | [] => none
  | c :: cs => if reSpace c then some (cs.dropWhile reSpace) else none

/-- One maximal non-whitespace token, which must be nonempty. -/
def takeNonSpaceOne : List Char → Option (List Char × List Char)
  | [] => none
  | c :: cs =>
    if reSpace c then none
    else some (c :: cs.takeWhile (fun d => !(reSpace d)),
               cs.dropWhile (fun d => !(reSpace d)))

/-- The closing bracketed group: a literal opening bracket, then any
characters other than newline, then a closing bracket somewhere later. -/
def aptBracketTail : List Char → Bool
  | '[' :: rest => (rest.takeWhile (fun d => !(d == '\n'))).contains ']'
  | _ => false

/-- The part of the Ubuntu pattern after the literal ",now": mandatory
whitespace, the captured version token, mandatory whitespace, one further
token, mandatory whitespace and the bracketed status group. Every step is
forced, so this sub-match is deterministic. -/
def aptTail (t : List Char) : Option (List Char) :=
  match dropSpacesOne t with
  | none => none
  | some t1 =>
    match takeNonSpaceOne t1 with
    | none => none
    | some (v, t2) =>
      match dropSpacesOne t2 with
      | none => none
      | some t3 =>
        match takeNonSpaceOne t3 with
        | none => none
        | some (_, t4) =>
          match dropSpacesOne t4 with
          | none => none
          | some t5 => if aptBracketTail t5 then some v else none

def nowMark : List Char := String.toList ",now"

/-- The greedy gap before ",now": the Go engine prefers the longest gap, so
the last position at which ",now" is followed by a matching tail wins; the
gap itself cannot cross a newline. -/
def aptSearch : List Char → Option (List Char)
  | [] => none
  | c :: cs =>
    let later := if c == '\n' then none else aptSearch cs
    match later with
    | some v => some v
    | none =>
      if nowMark.isPrefixOf (c :: cs) then aptTail ((c :: cs).drop 4) else none

/-- FindStringSubmatch with the ubuntuRegex of NewParser, returning the
name and version capture groups. The name group is the nonempty run before
the first slash, which must exist. -/
def aptMatch (l : List Char) : Option (List Char × List Char) :=
  let nm := l.takeWhile (fun d => !(d == '/'))
  if nm.length == 0 then none
  else if nm.length == l.length then none
  else
    match aptSearch (l.drop (nm.length + 1)) with
    | some v => some (nm, v)
    | none => none

/- ------------------------------------------------------------------ -/
/- The RPM package regular expression of NewParser. The version group may
   not contain a hyphen, so the split point is forced to the last hyphen
   of the line; the greedy name group may contain anything but a newline. -/

/-- Split a list at its last hyphen, if any. -/
def splitLastHyphen (l : List Char) : Option (List Char × List Char) :=
  let revTail := l.reverse.takeWhile (fun d => !(d == '-'))
  if revTail.length == l.length then none
  else some (l.take (l.length - revTail.length - 1), revTail.reverse)

def noNL (l : List Char) : Bool := l.all (fun d => !(d == '\n'))

def rpmEndings : List (List Char) :=
  [String.toList ".azl3.x86_64", String.toList ".azl3.noarch",
   String.toList ".cm2.x86_64", String.toList ".cm2.noarch"]

/-- The version group of the RPM pattern: a nonempty hyphen-free part
followed by a dist tag (azl3 or cm2) and an architecture (x86_64 or
noarch), each introduced by a literal dot. -/
def rpmVersionPartOk (vp : List Char) : Bool :=
  rpmEndings.any (fun e => e.isSuffixOf vp && decide (e.length < vp.length))

/-- FindStringSubmatch with the rpmRegex of NewParser, returning the name
part and the version part. -/
def rpmMatch (l : List Char) : Option (List Char × List Char) :=
  match splitLastHyphen l with
  | none => none
  | some (np, vp) =>
    if np.length == 0 then none
    else if !(noNL np) then none
    else if rpmVersionPartOk vp then some (np, vp) else none

/-- parser.go lines 274 to 281: strip a trailing architecture from the
captured version part. The part after the last dot is inspected and
removed exactly when it is x86_64 or noarch. -/
def releaseVersionOf (vp : List Char) : List Char :=
  let revTail := vp.reverse.takeWhile (fun d => !(d == '.'))
  if revTail.length == vp.length then vp
  else
    let arch := revTail.reverse
    if arch == String.toList "x86_64" || arch == String.toList "noarch"
    then vp.take (vp.length - revTail.length - 1)
    else vp

/-- Validity of split position i for the nameVersionRpm regex of
NewParser: a nonempty newline-free part, a hyphen at i, a digit right
after it, and a newline-free remainder. -/
def nvCond (np : List Char) (i : Nat) : Bool :=
  decide (1 ≤ i) && (np[i]? == some '-')
    && (match np[i + 1]? with | some d => d.isDigit | none => false)
    && noNL (np.take i) && noNL (np.drop (i + 2))

/-- FindStringSubmatch with the nameVersionRpm regex of NewParser: the
greedy name group selects the last valid split position. -/
def nameVersionRpmMatch (np : List Char) : Option (List Char × List Char) :=
  match ((List.range np.length).filter (fun i => nvCond np i)).getLast? with
  | some i => some (np.take i, np.drop (i + 1))
  | none => none

/-- parsePackageLine from parser.go: the Ubuntu grammar is tried first and
wins; otherwise the RPM grammar is tried, the architecture is stripped
from the version part, and the name part is split into name and upstream
version, with a fallback when that split fails. -/
def parsePackageLine (l : List Char) : Option OSPackage :=
  if l.length == 0 then none
  else
    match aptMatch l with
    | some (n, v) => some ⟨n, v⟩
    | none =>
      match rpmMatch l with
      | some (np, vp) =>
        let releaseVersion := releaseVersionOf vp
        match nameVersionRpmMatch np with
        | some (n, uv) => some ⟨n, uv ++ '-' :: releaseVersion⟩
        | none => some ⟨np, releaseVersion⟩
      | none => none

/- ------------------------------------------------------------------ -/
/- OS-release and container-image line classifiers. -/

/-- strings.Index(line, "=") with the requirement idx > 0 from
parseOSReleaseLine: the key part before the first equals sign must be
nonempty and the equals sign must exist. -/
def splitFirstEq (t : List Char) : Option (List Char × List Char) :=
  let pre := t.takeWhile (fun d => !(d == '='))
  if pre.length == t.length then none
  else if pre.length == 0 then none
  else some (pre, t.drop (pre.length + 1))

/-- Remove one pair of surrounding double quotes, parser.go lines 313-315. -/
def stripQuotes (v : List Char) : List Char :=
  if decide (2 ≤ v.length) && (v.head? == some '"') && (v.getLast? == some '"')
  then (v.drop 1).dropLast
  else v

/-- parseOSReleaseLine from parser.go: split at the first equals sign,
trim both sides, strip quotes, and store only the five recognized keys. -/
def parseOSReleaseLine (t : List Char) (d : OSReleaseData) : OSReleaseData :=
  if t.length == 0 then d
  else
    match splitFirstEq t with
    | none => d
    | some (k, v) =>
      let key := trim k
      let value := stripQuotes (trim v)
      if key = String.toList "NAME" then { d with nameField := some value }
      else if key = String.toList "VERSION_ID" then { d with versionIDField := some value }
      else if key = String.toList "VERSION" then { d with versionField := some value }
      else if key = String.toList "PRETTY_NAME" then { d with prettyNameField := some value }
      else if key = String.toList "ID" then { d with idField := some value }
      else d

/-- The four character item lead-in of a container image line: two spaces,
a hyphen and a space, checked against the untrimmed line. -/
def ciMark : List Char := String.toList "  - "

/-- parseContainerImageLine from parser.go. -/
def parseContainerImageLine (line : List Char) : Option ContainerImage :=
  if line.length == 0 then none
  else if !(ciMark.isPrefixOf line) then none
  else
    let imageName := trim (line.drop 4)
    if imageName.length == 0 then none
    else some ⟨imageName⟩

/- ------------------------------------------------------------------ -/
/- The scanner loop of Parse. -/

/-- The mutable locals of Parse, lines 131-147 of parser.go. -/
structure ScanState where
  inPackageSection : Bool
  inOSReleaseSection : Bool
  inContainerImagesSection : Bool
  packages : List OSPackage
  containerImages : List ContainerImage
  osReleaseData : OSReleaseData
  ubuntuPackageCount : Nat
  rpmPackageCount : Nat

deriving instance DecidableEq for ScanState

def initState : ScanState := ⟨false, false, false, [], [], emptyOSData, 0, 0⟩

def pkgBeginMark : List Char := String.toList "=== Installed Packages Begin"

def pkgEndMark : List Char := String.toList "=== Installed Packages End"

def osBeginMark : List Char := String.toList "=== os-release Begin"

def osEndMark : List Char := String.toList "=== os-release End"

def ciBeginMark : List Char := String.toList "containerd images pre-pulled:"

def listingMark : List Char := String.toList "Listing..."

/-- One iteration of the scanner loop of Parse, lines 149-207 of
parser.go: marker dispatch on the trimmed line first, then classification
according to the active section. -/
def stepLine (s : ScanState) (line : List Char) : ScanState :=
  let t := trim line
  if t = pkgBeginMark then
    { s with inPackageSection := true, inOSReleaseSection := false,
             inContainerImagesSection := false }
  else if t = pkgEndMark then { s with inPackageSection := false }
  else if t = osBeginMark then
    { s with inOSReleaseSection := true, inPackageSection := false,
             inContainerImagesSection := false }
  else if t = osEndMark then { s with inOSReleaseSection := false }
  else if t = ciBeginMark then
    { s with inContainerImagesSection := true, inPackageSection := false,
             inOSReleaseSection := false }
  else if t = [] ∨ t = listingMark then
    -- In the source this case continues the loop when a section is
    -- active; when no section is active it falls through to the section
    -- dispatch in which no branch applies, so the state is unchanged
    -- either way.
    s
  else if s.inPackageSection then
    match parsePackageLine t with
    | some pkg =>
      let s1 := { s with packages := s.packages ++ [pkg] }
      if (aptMatch t).isSome then
        { s1 with ubuntuPackageCount := s1.ubuntuPackageCount + 1 }
      else if (rpmMatch t).isSome then
        { s1 with rpmPackageCount := s1.rpmPackageCount + 1 }
      else s1
    | none => s
  else if s.inOSReleaseSection then
    { s with osReleaseData := parseOSReleaseLine t s.osReleaseData }
  else if s.inContainerImagesSection then
    if ciMark.isPrefixOf line then
      match parseContainerImageLine line with
      | some image => { s with containerImages := s.containerImages ++ [image] }
      | none => s
    else if t ≠ [] then { s with inContainerImagesSection := false }
    else s
  else s

/-- The whole scan of Parse over a stream already split into lines. -/
def runLines (lines : List (List Char)) : ScanState :=
  lines.foldl stepLine initState

/-- detectDistroFromID from parser.go. -/
def detectDistroFromID (id : List Char) : OSDistro :=
  if id = String.toList "ubuntu" ∨ id = String.toList "debian" then DistroUbuntu
  else if id = String.toList "azurelinux" then DistroAzureLinux
  else if id = String.toList "mariner" then DistroMariner
  else DistroUnknown

/-- Parse, lines 217-220: the distro suggested by the ID field, attempted
only when some OS release data was collected. -/
def idVerdict (s : ScanState) : OSDistro :=
  if osDataNonempty s.osReleaseData then
    detectDistroFromID (mapLookup s.osReleaseData.idField)
  else DistroUnknown

/-- Parse, lines 223-230: the package counter comparison. -/
def counterVerdict (s : ScanState) : OSDistro :=
  if s.rpmPackageCount > s.ubuntuPackageCount then DistroAzureLinux
  else if s.ubuntuPackageCount > s.rpmPackageCount then DistroUbuntu
  else DistroUnknown

/-- Parse, lines 214-230: the counter comparison is applied whenever the
ID based detection left the distro Unknown. -/
def detectedDistro (s : ScanState) : OSDistro :=
  if idVerdict s = DistroUnknown then counterVerdict s else idVerdict s

/-- OSRelease from parser.go. -/
structure OSRelease where
  name : List Char
  versionID : List Char
  version : List Char
  prettyName : List Char
  id : List Char
  distro : OSDistro

deriving instance DecidableEq for OSRelease

/-- Parse, lines 233-243: the OSRelease record is built exactly when the
recognized key map is non-empty. -/
def buildOSRelease (s : ScanState) : Option OSRelease :=
  if osDataNonempty s.osReleaseData then
    some ⟨mapLookup s.osReleaseData.nameField, mapLookup s.osReleaseData.versionIDField,
          mapLookup s.osReleaseData.versionField, mapLookup s.osReleaseData.prettyNameField,
          mapLookup s.osReleaseData.idField, detectedDistro s⟩
  else none

/-- ParseResult from parser.go. -/
structure ParseResult where
  packages : List OSPackage
  containerImages : List ContainerImage
  osRelease : Option OSRelease

deriving instance DecidableEq for ParseResult

/-- Parse on an already line-split stream that was read without error. -/
def parseLines (lines : List (List Char)) : ParseResult :=
  let s := runLines lines
  ⟨s.packages, s.containerImages, buildOSRelease s⟩

/-- Parse, lines 245-247: whether ErrNoPackageSection is returned. -/
def parseNoContent (lines : List (List Char)) : Bool :=
  let r := parseLines lines
  r.packages.isEmpty && r.containerImages.isEmpty && r.osRelease.isNone

/- ------------------------------------------------------------------ -/
/- The fix-version evaluator of main.go. Its two orderings live in
   external libraries that are not part of this repository, so they are
   modelled from the specification text. -/

/-- Numeric value of a digit run. -/
def natOfDigits (l : List Char) : Nat :=
  l.foldl (fun n c => n * 10 + (c.toNat - 48)) 0

/-- Modelled from the spec: character weight of the standard Debian
comparison algorithm. Digits weigh nothing inside a letter run, letters
sort by code point, the tilde sorts before everything including the end
of the string, and other punctuation sorts after all letters. -/
def dOrder (c : Char) : Int :=
  if c.isDigit then 0
  else if c.isAlpha then c.toNat
  else if c = '~' then -1
  else c.toNat + 256

/-- Modelled from the spec: lexical comparison of two non-digit runs,
where a run that ends weighs zero against the remaining characters of the
other run. -/
def lexRun : List Char → List Char → Ordering
  | [], [] => Ordering.eq
  | [], b :: _ => if dOrder b < 0 then Ordering.gt else Ordering.lt
  | a :: _, [] => if dOrder a < 0 then Ordering.lt else Ordering.gt
  | a :: as, b :: bs =>
    if dOrder a < dOrder b then Ordering.lt
    else if dOrder b < dOrder a then Ordering.gt
    else lexRun as bs

/-- Modelled from the spec: the standard Debian comparison over
alternating non-digit and digit runs, with explicit fuel so that the
recursion is structural. The fuel passed by verrevcmp always suffices. -/
def verrevcmpFuel : Nat → List Char → List Char → Ordering
  | 0, _, _ => Ordering.eq
  | Nat.succ f, a, b =>
    if a = [] ∧ b = [] then Ordering.eq
    else
      let na := a.takeWhile (fun c => !(c.isDigit))
      let ra := a.dropWhile (fun c => !(c.isDigit))
      let nb := b.takeWhile (fun c => !(c.isDigit))
      let rb := b.dropWhile (fun c => !(c.isDigit))
      match lexRun na nb with
      | Ordering.eq =>
        let da := ra.takeWhile (fun c => c.isDigit)
        let ta := ra.dropWhile (fun c => c.isDigit)
        let db := rb.takeWhile (fun c => c.isDigit)
        let tb := rb.dropWhile (fun c => c.isDigit)
        match compare (natOfDigits da) (natOfDigits db) with
        | Ordering.eq => verrevcmpFuel f ta tb
        | o => o
      | o => o

def verrevcmp (a b : List Char) : Ordering :=
  verrevcmpFuel (a.length + b.length + 1) a b

/-- A parsed Debian package version: epoch, upstream version, revision. -/
structure DebVersion where
  epoch : Nat
  upstream : List Char
  revision : List Char

deriving instance DecidableEq for DebVersion

/-- Modelled from the spec: the characters a Debian version may contain. -/
def debAllowed (c : Char) : Bool :=
  c.isDigit || c.isAlpha || c == '.' || c == '+' || c == '-' || c == ':' || c == '~'

/-- Modelled from the spec: parsing of an epoch:upstream-revision Debian
version string, as performed by the external go-deb-version library. The
epoch before the first colon must be a nonempty digit run, the remainder
must be nonempty, start with a digit and use only allowed characters, and
the revision is split off at the last hyphen. A string violating any of
these conditions fails to parse. -/
def debParse (s : List Char) : Option DebVersion :=
  let pre := s.takeWhile (fun c => !(c == ':'))
  let hasColon := decide (pre.length < s.length)
  let epochPart := if hasColon then pre else []
  let rest := if hasColon then s.drop (pre.length + 1) else s
  if hasColon && (decide (epochPart.length = 0) || !(epochPart.all Char.isDigit)) then none
  else if rest.length == 0 then none
  else if !(match rest.head? with | some c => c.isDigit | none => false) then none
  else if !(rest.all debAllowed) then none
  else
    match splitLastHyphen rest with
    | some (up, rev) => some ⟨natOfDigits epochPart, up, rev⟩
    | none => some ⟨natOfDigits epochPart, rest, []⟩

/-- Modelled from the spec: Debian version ordering, epoch first, then
the upstream version, then the revision. -/
def debCompare (x y : DebVersion) : Ordering :=
  match compare x.epoch y.epoch with
  | Ordering.eq =>
    match verrevcmp x.upstream y.upstream with
    | Ordering.eq => verrevcmp x.revision y.revision
    | o => o
  | o => o

/-- A parsed RPM version: epoch, version, release. -/
structure RPMVersion where
  epoch : Nat
  ver : List Char
  rel : List Char

deriving instance DecidableEq for RPMVersion

/-- Modelled from the spec: parsing of an RPM epoch:version-release
string, as performed by the external go-rpm-version library; it never
fails. The epoch is the digit run before the first colon when present,
and the release is split off at the first hyphen. -/
def rpmParse (s : List Char) : RPMVersion :=
  let pre := s.takeWhile (fun c => !(c == ':'))
  let hasColon := decide (pre.length < s.length)
  let epoch :=
    if hasColon && decide (0 < pre.length) && pre.all Char.isDigit
    then natOfDigits pre else 0
  let rest := if hasColon then s.drop (pre.length + 1) else s
  let vpre := rest.takeWhile (fun c => !(c == '-'))
  if vpre.length < rest.length then ⟨epoch, vpre, rest.drop (vpre.length + 1)⟩
  else ⟨epoch, rest, []⟩

/-- C strcmp on character lists. -/
def strcmpList : List Char → List Char → Ordering
  | [], [] => Ordering.eq
  | [], _ :: _ => Ordering.lt
  | _ :: _, [] => Ordering.gt
  | a :: as, b :: bs =>
    if a.toNat < b.toNat then Ordering.lt
    else if b.toNat < a.toNat then Ordering.gt
    else strcmpList as bs

def isAlnumTilde (c : Char) : Bool := c.isDigit || c.isAlpha || c == '~'

/-- Modelled from the spec: the numeric-segment-aware RPM comparison over
runs of digits and letters, separators skipped, digit segments beating
letter segments, with tilde sorting first; fuel makes the recursion
structural and the fuel passed by rpmvercmpRun always suffices. -/
def rpmvercmpFuel : Nat → List Char → List Char → Ordering
  | 0, _, _ => Ordering.eq
  | Nat.succ f, a, b =>
    let a1 := a.dropWhile (fun c => !(isAlnumTilde c))
    let b1 := b.dropWhile (fun c => !(isAlnumTilde c))
    match a1, b1 with
    | '~' :: as, '~' :: bs => rpmvercmpFuel f as bs
    | '~' :: _, _ => Ordering.lt
    | _, '~' :: _ => Ordering.gt
    | [], [] => Ordering.eq
    | [], _ => Ordering.lt
    | _, [] => Ordering.gt
    | x :: _, _ =>
      if x.isDigit then
        let da := a1.takeWhile Char.isDigit
        let ta := a1.dropWhile Char.isDigit
        let db := b1.takeWhile Char.isDigit
        let tb := b1.dropWhile Char.isDigit
        if db.length == 0 then Ordering.gt
        else
          match compare (natOfDigits da) (natOfDigits db) with
          | Ordering.eq => rpmvercmpFuel f ta tb
          | o => o
      else
        let sa := a1.takeWhile Char.isAlpha
        let ta := a1.dropWhile Char.isAlpha
        let sb := b1.takeWhile Char.isAlpha
        let tb := b1.dropWhile Char.isAlpha
        if sb.length == 0 then Ordering.lt
        else
          match strcmpList sa sb with
          | Ordering.eq => rpmvercmpFuel f ta tb
          | o => o

def rpmvercmpRun (a b : List Char) : Ordering :=
  rpmvercmpFuel (a.length + b.length + 1) a b

/-- Modelled from the spec: RPM version ordering, epoch first, then the
version, then the release. -/
def rpmCompare (x y : RPMVersion) : Ordering :=
  match compare x.epoch y.epoch with
  | Ordering.eq =>
    match rpmvercmpRun x.ver y.ver with
    | Ordering.eq => rpmvercmpRun x.rel y.rel
    | o => o
  | o => o

/-- isPackageFixed from main.go, lines 54-77: an empty fixed version is
never fixed; under Ubuntu/Debian both strings must parse as Debian
versions and the verdict is installed at least fixed; under AzureLinux or
Mariner the verdict uses the RPM ordering; every other distro value is
never fixed. -/
def isPackageFixed (pkgVersion fixedVersion : List Char) (distro : OSDistro) : Bool :=
  if fixedVersion = [] then false
  else if distro = DistroUbuntu then
    match debParse pkgVersion, debParse fixedVersion with
    | some p, some f => !(debCompare p f == Ordering.lt)
    | _, _ => false
  else if distro = DistroAzureLinux ∨ distro = DistroMariner then
    !(rpmCompare (rpmParse pkgVersion) (rpmParse fixedVersion) == Ordering.lt)
  else false

/- ------------------------------------------------------------------ -/
/- Supporting definitions for the stated properties. -/

/-- A trimmed line that is none of the literals recognized by the marker
dispatch of the scanner loop. -/
def notMarkerLit (t : List Char) : Prop :=
  t ≠ pkgBeginMark ∧ t ≠ pkgEndMark ∧ t ≠ osBeginMark ∧ t ≠ osEndMark
    ∧ t ≠ ciBeginMark ∧ t ≠ listingMark

/-- How many of the three section flags are set. -/
def activeSectionCount (s : ScanState) : Nat :=
  (if s.inPackageSection then 1 else 0) + (if s.inOSReleaseSection then 1 else 0)
    + (if s.inContainerImagesSection then 1 else 0)

/-- The tracker is in the None state: no section flag is set. -/
def trackerIsNone (s : ScanState) : Bool :=
  !s.inPackageSection && !s.inOSReleaseSection && !s.inContainerImagesSection

/-- An input whose os-release section carries an unrecognized ID while the
packages section carries one APT format line. -/
def c1Lines : List (List Char) :=
  [String.toList "=== os-release Begin",
   String.toList "ID=fedora",
   String.toList "=== os-release End",
   String.toList "=== Installed Packages Begin",
   String.toList "adduser/noble,now 3.137ubuntu1 all [installed,automatic]",
   String.toList "=== Installed Packages End"]

/-- A line matching both package grammars at once: the APT grammar
captures name a and version 1, while the RPM grammar also matches with
name part up to the last hyphen. -/
def c6Cex : List Char := String.toList "a/b,now 1 2 [ok]-3.azl3.x86_64"

end OvalModel

namespace OvalModel

/- ------------------------------------------------------------------ -/
/- Theorems. -/

/-- Claim C3: when the stream is read without error, Parse returns the
distinguished no-content failure ErrNoPackageSection exactly when the
extracted package list is empty, the container image list is empty and no
OS identity was recorded; any one non-empty artifact makes the parse a
success. An input with none of the recognizable sections yields the
failure. -/
theorem claim3 :
    (∀ lines : List (List Char),
      parseNoContent lines = true ↔
        ((parseLines lines).packages = [] ∧ (parseLines lines).containerImages = []
          ∧ osDataNonempty (runLines lines).osReleaseData = false))
    ∧ parseNoContent [String.toList "no recognizable", String.toList "sections here"] = true := by
  constructor
  · intro lines
    simp only [parseNoContent, parseLines, buildOSRelease]
    cases h : osDataNonempty (runLines lines).osReleaseData
    · simp [h, List.isEmpty_iff]
    · simp [h, List.isEmpty_iff]
  · decide

/-- Witness for claim C3: the equivalence applied to a concrete two line
input with no recognizable section, where the failure is reported. -/
theorem claim3_witness :
    parseNoContent [String.toList "hello", String.toList "world"] = true ↔
      ((parseLines [String.toList "hello", String.toList "world"]).packages = []
        ∧ (parseLines [String.toList "hello", String.toList "world"]).containerImages = []
        ∧ osDataNonempty
            (runLines [String.toList "hello", String.toList "world"]).osReleaseData = false) :=
  claim3.1 [String.toList "hello", String.toList "world"]

/-- Claim C1 (corrected): the counter comparison is applied whenever the
ID based detection yields Unknown, including when the recognized key map
is non-empty but the ID is absent or unrecognized; the literal ID mapping
decides alone only when it yields a recognized distro. -/
theorem claim1_amended : ∀ lines : List (List Char),
    (osDataNonempty (runLines lines).osReleaseData = true →
      detectDistroFromID (mapLookup (runLines lines).osReleaseData.idField) ≠ DistroUnknown →
      detectedDistro (runLines lines)
        = detectDistroFromID (mapLookup (runLines lines).osReleaseData.idField))
    ∧ (osDataNonempty (runLines lines).osReleaseData = true →
      detectDistroFromID (mapLookup (runLines lines).osReleaseData.idField) = DistroUnknown →
      detectedDistro (runLines lines) = counterVerdict (runLines lines))
    ∧ (osDataNonempty (runLines lines).osReleaseData = false →
      detectedDistro (runLines lines) = counterVerdict (runLines lines)) := by
  intro lines
  refine ⟨fun h1 h2 => ?_, fun h1 h2 => ?_, fun h1 => ?_⟩
  · simp [detectedDistro, idVerdict, h1, h2]
  · simp [detectedDistro, idVerdict, h1, h2]
  · simp [detectedDistro, idVerdict, h1]

/-- Witness for claim C1: on the concrete input c1Lines the key map is
non-empty, the ID is unrecognized, and the detector falls back to the
counter comparison. -/
theorem claim1_witness :
    detectedDistro (runLines c1Lines) = counterVerdict (runLines c1Lines) :=
  (claim1_amended c1Lines).2.1 (by decide) (by decide)

/-- Counterexample to claim C1 as stated: on c1Lines the recognized key
map is non-empty and the ID is unrecognized, yet the detected distro is
Ubuntu/Debian, not Unknown, because the counters were consulted. -/
theorem claim1_counterexample :
    ((parseLines c1Lines).osRelease.map (fun r => r.distro)) = some DistroUbuntu
    ∧ DistroUbuntu ≠ DistroUnknown :=
  ⟨by decide, by decide⟩

/-- Claim C2 (corrected): the Installed Packages End marker clears only
the packages flag and the os-release End marker clears only the
os-release flag; every other component of the state, in particular a
section opened by a different Begin marker, is left unchanged. -/
theorem claim2_amended : ∀ (s : ScanState) (l : List Char),
    (trim l = pkgEndMark → stepLine s l = { s with inPackageSection := false })
    ∧ (trim l = osEndMark → stepLine s l = { s with inOSReleaseSection := false }) := by
  intro s l
  constructor
  · intro h
    simp only [stepLine, h]
    simp
    decide
  · intro h
    simp only [stepLine, h]
    simp
    rw [if_neg (by decide), if_neg (by decide), if_neg (by decide)]

/-- Witness for claim C2: reading the Installed Packages End marker while
the os-release section is active resets the packages flag and keeps all
other state. -/
theorem claim2_witness :
    stepLine ⟨false, true, false, [], [], emptyOSData, 0, 0⟩ pkgEndMark
      = ⟨false, true, false, [], [], emptyOSData, 0, 0⟩ :=
  (claim2_amended ⟨false, true, false, [], [], emptyOSData, 0, 0⟩ pkgEndMark).1 (by decide)

/-- Counterexample to claim C2 as stated: after the os-release Begin
marker, the line with trimmed text Installed Packages End does not move
the tracker to the None state; the os-release section stays active. -/
theorem claim2_counterexample :
    trackerIsNone (runLines [osBeginMark, pkgEndMark]) = false := by decide

/-- Claim C4: for a non-empty fixed version, under Ubuntu/Debian with both
strings parsing as Debian versions the verdict is fixed exactly when the
installed version is at least the fixed version in the Debian ordering,
and under AzureLinux or Mariner exactly when the installed version is at
least the fixed version in the RPM ordering. -/
theorem claim4 : ∀ iv fv : List Char, fv ≠ [] →
    (∀ a b : DebVersion, debParse iv = some a → debParse fv = some b →
      (isPackageFixed iv fv DistroUbuntu = true ↔ debCompare a b ≠ Ordering.lt))
    ∧ (∀ d : OSDistro, d = DistroAzureLinux ∨ d = DistroMariner →
      (isPackageFixed iv fv d = true ↔
        rpmCompare (rpmParse iv) (rpmParse fv) ≠ Ordering.lt)) := by
  intro iv fv hfv
  constructor
  · intro a b ha hb
    simp [isPackageFixed, hfv, ha, hb]
    cases hdc : debCompare a b <;> decide
  · intro d hd
    rcases hd with h | h <;> subst h <;>
      simp [isPackageFixed, hfv, DistroAzureLinux, DistroMariner, DistroUbuntu] <;>
      cases hrc : rpmCompare (rpmParse iv) (rpmParse fv) <;> decide

/-- Witness for claim C4: a Debian pair with a larger revision on the
installed side is fixed, and an RPM pair with a larger release on the
installed side is fixed. -/
theorem claim4_witness :
    isPackageFixed (String.toList "1.2.3-4ubuntu2") (String.toList "1.2.3-4ubuntu1")
      DistroUbuntu = true
    ∧ isPackageFixed (String.toList "1.2.3-5.azl3") (String.toList "1.2.3-4.azl3")
      DistroAzureLinux = true := by
  constructor
  · exact ((claim4 (String.toList "1.2.3-4ubuntu2") (String.toList "1.2.3-4ubuntu1")
      (by decide)).1 ⟨0, String.toList "1.2.3", String.toList "4ubuntu2"⟩
      ⟨0, String.toList "1.2.3", String.toList "4ubuntu1"⟩ (by decide) (by decide)).mpr
      (by decide)
  · exact ((claim4 (String.toList "1.2.3-5.azl3") (String.toList "1.2.3-4.azl3")
      (by decide)).2 DistroAzureLinux (Or.inl rfl)).mpr (by decide)

/-- Claim C5: the verdict is never fixed when the fixed version is empty,
when the distro is Unknown or any other unsupported value, or when the
distro is Ubuntu/Debian and either version string fails to parse as a
Debian version. -/
theorem claim5 : ∀ (iv fv : List Char) (d : OSDistro),
    (fv = [] → isPackageFixed iv fv d = false)
    ∧ (d ≠ DistroUbuntu → d ≠ DistroAzureLinux → d ≠ DistroMariner →
        isPackageFixed iv fv d = false)
    ∧ (d = DistroUbuntu → (debParse iv = none ∨ debParse fv = none) →
        isPackageFixed iv fv d = false) := by
  intro iv fv d
  refine ⟨fun h => ?_, fun h1 h2 h3 => ?_, fun hd hp => ?_⟩
  · simp [isPackageFixed, h]
  · simp [isPackageFixed, h1, h2, h3]
  · subst hd
    rcases hp with h | h
    · simp [isPackageFixed, h]
    · rcases hiv : debParse iv with _ | p <;> simp [isPackageFixed, h, hiv]

/-- Witness for claim C5: an empty fixed version, the Unknown distro, and
an unparsable Debian installed version all yield not fixed. -/
theorem claim5_witness :
    isPackageFixed (String.toList "1.2.3") [] DistroUbuntu = false
    ∧ isPackageFixed (String.toList "1.2.3") (String.toList "1.2.4") DistroUnknown = false
    ∧ isPackageFixed (String.toList "invalid-version") (String.toList "1.2.3-4ubuntu1")
        DistroUbuntu = false :=
  ⟨(claim5 _ _ _).1 rfl,
   (claim5 _ _ _).2.1 (by decide) (by decide) (by decide),
   (claim5 _ _ _).2.2 rfl (Or.inl (by decide))⟩

/-- Claim C6 (corrected): for a package line matched by the RPM grammar
and not by the APT grammar, which is tried first, the architecture is
stripped from the version part, the name part is split at the last
boundary where a hyphen is followed by a digit-led segment, and the final
version joins the upstream version and the release version with a hyphen;
without such a boundary the whole name part is the name and the release
version alone is the version. The concrete RPM line of the specification
extracts as stated. -/
theorem claim6_amended :
    (∀ l np vp : List Char, aptMatch l = none → rpmMatch l = some (np, vp) →
      parsePackageLine l = some (
        match nameVersionRpmMatch np with
        | some q => ⟨q.1, q.2 ++ '-' :: releaseVersionOf vp⟩
        | none => ⟨np, releaseVersionOf vp⟩))
    ∧ parsePackageLine (String.toList "python3-cryptography-42.0.5-3.azl3.x86_64")
        = some ⟨String.toList "python3-cryptography", String.toList "42.0.5-3.azl3"⟩ := by
  constructor
  · intro l np vp ha hr
    have hl : ¬(l.length == 0) = true := by
      intro hlen
      have hnil : l = [] := by simpa using hlen
      subst hnil
      simp [rpmMatch, splitLastHyphen] at hr
    simp only [parsePackageLine, ha, hr]
    rw [if_neg hl]
    cases h2 : nameVersionRpmMatch np with
    | none => simp [h2]
    | some q => obtain ⟨n, uv⟩ := q; simp [h2]
  · decide

/-- Witness for claim C6: the two grammar hypotheses hold on the concrete
RPM line of the specification and the extraction is as described. -/
theorem claim6_witness :
    parsePackageLine (String.toList "python3-cryptography-42.0.5-3.azl3.x86_64")
      = some ⟨String.toList "python3-cryptography", String.toList "42.0.5-3.azl3"⟩ := by
  have h := claim6_amended.1 (String.toList "python3-cryptography-42.0.5-3.azl3.x86_64")
    (String.toList "python3-cryptography-42.0.5") (String.toList "3.azl3.x86_64")
    (by decide) (by decide)
  exact h.trans (by decide)

/-- Counterexample to claim C6 as stated: this line matches the RPM
grammar, yet the extraction is the APT capture, name a and version 1,
not the RPM decomposition with name the whole name part and version
3.azl3, because the APT grammar is tried first and also matches. -/
theorem claim6_counterexample :
    (rpmMatch c6Cex).isSome = true
    ∧ parsePackageLine c6Cex = some ⟨String.toList "a", String.toList "1"⟩
    ∧ parsePackageLine c6Cex ≠ some ⟨String.toList "a/b,now 1 2 [ok]", String.toList "3.azl3"⟩ :=
  ⟨by decide, by decide, by decide⟩

/-- Appending a non-space character keeps it past the left trim. -/
theorem trimLeft_append_last (c : Char) (h : goSpace c = false) :
    ∀ xs : List Char, trimLeft (xs ++ [c]) = trimLeft xs ++ [c] := by
  intro xs
  induction xs with
  | nil => simp [trimLeft, h]
  | cons x xs ih => cases hx : goSpace x <;> simp [trimLeft, hx, ih]

/-- A leading non-space character survives the right trim. -/
theorem trimRight_cons (c : Char) (l : List Char) (h : goSpace c = false) :
    trimRight (c :: l) = c :: trimRight l := by
  unfold trimRight
  rw [List.reverse_cons, trimLeft_append_last c h, List.reverse_append]
  simp

/-- Trimming a line that starts with the container item lead-in exposes
its hyphen as the first character. -/
theorem trim_of_ciMark (line r : List Char) (h : line = ciMark ++ r) :
    trim line = '-' :: trimRight (' ' :: r) := by
  subst h
  have h1 : trimLeft (ciMark ++ r) = '-' :: ' ' :: r := by
    show trimLeft (' ' :: ' ' :: '-' :: ' ' :: r) = '-' :: ' ' :: r
    rw [trimLeft, if_pos (by decide), trimLeft, if_pos (by decide),
        trimLeft, if_neg (by decide)]
  rw [trim, h1, trimRight_cons '-' (' ' :: r) (by decide)]

/-- The trimmed form of a container item line starts with a hyphen. -/
theorem ciMark_head (line : List Char) (h : ciMark.isPrefixOf line = true) :
    (trim line).head? = some '-' := by
  obtain ⟨r, hr⟩ := List.isPrefixOf_iff_prefix.mp h
  rw [trim_of_ciMark line r hr.symm]
  rfl

/-- A container item line does not trim to a recognized marker literal and
does not trim to the empty line. -/
theorem ciMark_not_marker (line : List Char) (h : ciMark.isPrefixOf line = true) :
    notMarkerLit (trim line) ∧ trim line ≠ [] := by
  have hh := ciMark_head line h
  constructor
  · refine ⟨?_, ?_, ?_, ?_, ?_, ?_⟩ <;> intro he <;> rw [he] at hh <;>
      exact absurd hh (by decide)
  · intro he
    rw [he] at hh
    exact absurd hh (by decide)

/-- On a line carrying the item lead-in, parseContainerImageLine records
the trimmed remainder exactly when that remainder is non-empty. -/
theorem parseCI_of_pre (line : List Char) (h : ciMark.isPrefixOf line = true) :
    parseContainerImageLine line
      = (if trim (line.drop 4) = [] then none else some ⟨trim (line.drop 4)⟩) := by
  have hlen : ¬(line.length == 0) = true := by
    obtain ⟨r, hr⟩ := List.isPrefixOf_iff_prefix.mp h
    rw [← hr]
    simp [ciMark]
  unfold parseContainerImageLine
  rw [if_neg hlen, if_neg (by simp [h])]
  by_cases he : trim (line.drop 4) = []
  · simp [he]
  · simp [he, List.length_eq_zero]

/-- Claim C7: while only the container-images section is active, a line
carrying the untrimmed four character lead-in of two spaces, hyphen and
space is recorded with the trimmed remainder as name; a non-blank line
without the lead-in that is not a recognized literal ends the section
without a record; a blank line neither records nor ends the section. -/
theorem claim7 : ∀ (s : ScanState) (line : List Char),
    s.inPackageSection = false → s.inOSReleaseSection = false →
    s.inContainerImagesSection = true → notMarkerLit (trim line) →
    ((ciMark.isPrefixOf line = true → trim (line.drop 4) ≠ [] →
        (stepLine s line).containerImages
          = s.containerImages ++ [⟨trim (line.drop 4)⟩])
     ∧ (ciMark.isPrefixOf line = false → trim line ≠ [] →
        stepLine s line = { s with inContainerImagesSection := false })
     ∧ (trim line = [] → stepLine s line = s)) := by
  intro s line hP hOS hCI hm
  obtain ⟨m1, m2, m3, m4, m5, m6⟩ := hm
  refine ⟨fun hpre hne => ?_, fun hpre hne => ?_, fun hblank => ?_⟩
  · have hne0 : trim line ≠ [] := (ciMark_not_marker line hpre).2
    simp only [stepLine]
    rw [if_neg m1, if_neg m2, if_neg m3, if_neg m4, if_neg m5,
        if_neg (by rintro (h | h); exact hne0 h; exact m6 h),
        if_neg (by simp [hP]), if_neg (by simp [hOS]), if_pos hCI,
        if_pos hpre, parseCI_of_pre line hpre, if_neg hne]
  · simp only [stepLine]
    rw [if_neg m1, if_neg m2, if_neg m3, if_neg m4, if_neg m5,
        if_neg (by rintro (h | h); exact hne h; exact m6 h),
        if_neg (by simp [hP]), if_neg (by simp [hOS]), if_pos hCI,
        if_neg (by simp [hpre]), if_pos hne]
  · simp only [stepLine]
    rw [if_neg m1, if_neg m2, if_neg m3, if_neg m4, if_neg m5,
        if_pos (Or.inl hblank)]

/-- Witness for claim C7: in the container-images state a well prefixed
line appends exactly one image whose name is the trimmed remainder. -/
theorem claim7_witness :
    (stepLine ⟨false, false, true, [], [], emptyOSData, 0, 0⟩
        (String.toList "  - mcr.microsoft.com/oss/kubernetes/pause:3.6")).containerImages
      = [⟨String.toList "mcr.microsoft.com/oss/kubernetes/pause:3.6"⟩] := by
  have h := (claim7 ⟨false, false, true, [], [], emptyOSData, 0, 0⟩
    (String.toList "  - mcr.microsoft.com/oss/kubernetes/pause:3.6") rfl rfl rfl
    ⟨by decide, by decide, by decide, by decide, by decide, by decide⟩).1
    (by decide) (by decide)
  exact h.trans (by decide)

/-- Claim C10: while only the container-images section is active, a line
carrying the item lead-in whose remainder trims to nothing, such as the
four character line itself, changes nothing: no record is produced and
the section stays active, so later well prefixed lines are still
recorded. -/
theorem claim10 : ∀ (s : ScanState) (line : List Char),
    s.inPackageSection = false → s.inOSReleaseSection = false →
    s.inContainerImagesSection = true →
    ciMark.isPrefixOf line = true → trim (line.drop 4) = [] →
    stepLine s line = s := by
  intro s line hP hOS hCI hpre hrem
  obtain ⟨⟨m1, m2, m3, m4, m5, m6⟩, hne0⟩ := ciMark_not_marker line hpre
  simp only [stepLine]
  rw [if_neg m1, if_neg m2, if_neg m3, if_neg m4, if_neg m5,
      if_neg (by rintro (h | h); exact hne0 h; exact m6 h),
      if_neg (by simp [hP]), if_neg (by simp [hOS]), if_pos hCI, if_pos hpre,
      parseCI_of_pre line hpre, if_pos hrem]

/-- Witness for claim C10: the bare item lead-in line leaves a concrete
container-images state untouched. -/
theorem claim10_witness :
    stepLine ⟨false, false, true, [], [], emptyOSData, 0, 0⟩ (String.toList "  - ")
      = ⟨false, false, true, [], [], emptyOSData, 0, 0⟩ :=
  claim10 ⟨false, false, true, [], [], emptyOSData, 0, 0⟩ (String.toList "  - ")
    rfl rfl rfl (by decide) (by decide)

/-- Claim C8: at most one of the three section flags is ever set. Every
single line step preserves the bound from any state satisfying it, and
every scan from the initial state satisfies it, whatever the markers in
the input. -/
theorem claim8 :
    (∀ (s : ScanState) (l : List Char),
      activeSectionCount s ≤ 1 → activeSectionCount (stepLine s l) ≤ 1)
    ∧ (∀ lines : List (List Char), activeSectionCount (runLines lines) ≤ 1) := by
  have hstep : ∀ (s : ScanState) (l : List Char),
      activeSectionCount s ≤ 1 → activeSectionCount (stepLine s l) ≤ 1 := by
    intro s l h
    simp only [stepLine]
    by_cases h1 : trim l = pkgBeginMark
    · rw [if_pos h1]; simp [activeSectionCount]
    rw [if_neg h1]
    by_cases h2 : trim l = pkgEndMark
    · rw [if_pos h2]
      revert h
      simp only [activeSectionCount]
      cases hb1 : s.inPackageSection <;> cases hb2 : s.inOSReleaseSection <;>
        cases hb3 : s.inContainerImagesSection <;> simp
    rw [if_neg h2]
    by_cases h3 : trim l = osBeginMark
    · rw [if_pos h3]; simp [activeSectionCount]
    rw [if_neg h3]
    by_cases h4 : trim l = osEndMark
    · rw [if_pos h4]
      revert h
      simp only [activeSectionCount]
      cases hb1 : s.inPackageSection <;> cases hb2 : s.inOSReleaseSection <;>
        cases hb3 : s.inContainerImagesSection <;> simp
    rw [if_neg h4]
    by_cases h5 : trim l = ciBeginMark
    · rw [if_pos h5]; simp [activeSectionCount]
    rw [if_neg h5]
    by_cases h6 : trim l = [] ∨ trim l = listingMark
    · rw [if_pos h6]; exact h
    rw [if_neg h6]
    by_cases hp : s.inPackageSection = true
    · rw [if_pos hp]
      split
      · split_ifs <;> simpa only [activeSectionCount] using h
      · exact h
    rw [if_neg hp]
    by_cases ho : s.inOSReleaseSection = true
    · rw [if_pos ho]; simpa only [activeSectionCount] using h
    rw [if_neg ho]
    by_cases hc : s.inContainerImagesSection = true
    · rw [if_pos hc]
      by_cases hpre : ciMark.isPrefixOf l = true
      · rw [if_pos hpre]
        split
        · simpa only [activeSectionCount] using h
        · exact h
      · rw [if_neg hpre]
        by_cases hne : trim l ≠ []
        · rw [if_pos hne]
          revert h
          simp only [activeSectionCount]
          cases hb1 : s.inPackageSection <;> cases hb2 : s.inOSReleaseSection <;>
            cases hb3 : s.inContainerImagesSection <;> simp
        · rw [if_neg hne]; exact h
    · rw [if_neg hc]; exact h
  refine ⟨hstep, fun lines => ?_⟩
  have hall : ∀ s : ScanState, activeSectionCount s ≤ 1 →
      activeSectionCount (lines.foldl stepLine s) ≤ 1 := by
    induction lines with
    | nil => intro s h; exact h
    | cons x xs ih => intro s h; exact ih _ (hstep s x h)
  simpa [runLines] using hall initState (by decide)

/-- Witness for claim C8: one step on the initial state, which satisfies
the bound, keeps at most one section flag set. -/
theorem claim8_witness :
    activeSectionCount (stepLine initState pkgBeginMark) ≤ 1 :=
  claim8.1 initState pkgBeginMark (by decide)

/-- A line matched by the APT grammar contains a slash, so it is none of
the literals recognized by the marker dispatch. -/
theorem apt_no_marker : ∀ t : List Char, (aptMatch t).isSome = true → notMarkerLit t := by
  intro t h
  refine ⟨?_, ?_, ?_, ?_, ?_, ?_⟩ <;> intro he <;> rw [he] at h <;> exact absurd h (by decide)

/-- The number of kept elements of filterMap is the number of elements on
which the function succeeds. -/
theorem length_filterMap_eq_length_filter {α β : Type} (f : α → Option β) :
    ∀ l : List α, (l.filterMap f).length = (l.filter (fun a => (f a).isSome)).length := by
  intro l
  induction l with
  | nil => rfl
  | cons x xs ih => cases hx : f x <;> simp [List.filterMap_cons, hx, ih]

/-- Scanning a run of blank or APT lines from a state with the packages
flag set appends exactly the APT captures of the non-blank lines and
keeps the flag set. -/
theorem pkgScan : ∀ (body : List (List Char)) (s : ScanState),
    s.inPackageSection = true →
    (∀ l ∈ body, trim l = [] ∨ (aptMatch (trim l)).isSome = true) →
    (body.foldl stepLine s).packages
      = s.packages
        ++ body.filterMap (fun l => (aptMatch (trim l)).map (fun p => OSPackage.mk p.1 p.2))
    ∧ (body.foldl stepLine s).inPackageSection = true := by
  intro body
  induction body with
  | nil =>
    intro s hP hbody
    simpa using hP
  | cons x xs ih =>
    intro s hP hbody
    have hx := hbody x (by simp)
    have hxs : ∀ l ∈ xs, trim l = [] ∨ (aptMatch (trim l)).isSome = true :=
      fun l hl => hbody l (by simp [hl])
    rcases hx with hb | ha
    · have hstep : stepLine s x = s := by
        simp only [stepLine, hb]
        simp [(by decide : pkgBeginMark ≠ []), (by decide : pkgEndMark ≠ []),
              (by decide : osBeginMark ≠ []), (by decide : osEndMark ≠ []),
              (by decide : ciBeginMark ≠ []), (by decide : listingMark ≠ [])]
      rw [List.foldl_cons, hstep]
      have hfold := ih s hP hxs
      refine ⟨?_, hfold.2⟩
      rw [hfold.1, List.filterMap_cons]
      have hnone : aptMatch (trim x) = none := by rw [hb]; decide
      simp [hnone]
    · obtain ⟨p, hp⟩ := Option.isSome_iff_exists.mp ha
      obtain ⟨n, v⟩ := p
      obtain ⟨m1, m2, m3, m4, m5, m6⟩ := apt_no_marker (trim x) ha
      have hne : trim x ≠ [] := by
        intro he
        rw [he] at ha
        exact absurd ha (by decide)
      have hppl : parsePackageLine (trim x) = some ⟨n, v⟩ := by
        unfold parsePackageLine
        rw [if_neg (by simp [List.length_eq_zero, hne])]
        simp [hp]
      have hstep : (stepLine s x).packages = s.packages ++ [⟨n, v⟩]
          ∧ (stepLine s x).inPackageSection = true := by
        simp only [stepLine]
        rw [if_neg m1, if_neg m2, if_neg m3, if_neg m4, if_neg m5,
            if_neg (by rintro (hh | hh); exact hne hh; exact m6 hh), if_pos hP]
        simp only [hppl]
        rw [if_pos ha]
        simp [hP]
      rw [List.foldl_cons]
      have hfold := ih (stepLine s x) hstep.2 hxs
      refine ⟨?_, hfold.2⟩
      rw [hfold.1, hstep.1, List.filterMap_cons]
      simp [hp]

/-- Claim C9: for an input whose packages section holds only blank lines
and lines matched by the APT grammar, Parse extracts exactly the APT
capture pairs of the non-blank lines, in order, and the package count
equals the number of non-blank lines of the section. -/
theorem claim9 : ∀ body : List (List Char),
    (∀ l ∈ body, trim l = [] ∨ (aptMatch (trim l)).isSome = true) →
    (parseLines (pkgBeginMark :: body ++ [pkgEndMark])).packages
        = body.filterMap (fun l => (aptMatch (trim l)).map (fun p => OSPackage.mk p.1 p.2))
    ∧ ((parseLines (pkgBeginMark :: body ++ [pkgEndMark])).packages).length
        = (body.filter (fun l => !((trim l).isEmpty))).length := by
  intro body hbody
  have h1 : runLines (pkgBeginMark :: body ++ [pkgEndMark])
      = stepLine (body.foldl stepLine (stepLine initState pkgBeginMark)) pkgEndMark := by
    simp [runLines, List.foldl_append]
  have hinit : stepLine initState pkgBeginMark
      = ⟨true, false, false, [], [], emptyOSData, 0, 0⟩ := by decide
  have hendstep : ∀ s : ScanState, (stepLine s pkgEndMark).packages = s.packages := by
    intro s
    simp only [stepLine]
    rw [show trim pkgEndMark = pkgEndMark from by decide]
    rw [if_neg (by decide), if_pos rfl]
  have hscan := pkgScan body ⟨true, false, false, [], [], emptyOSData, 0, 0⟩ rfl hbody
  have hpk : (parseLines (pkgBeginMark :: body ++ [pkgEndMark])).packages
      = body.filterMap (fun l => (aptMatch (trim l)).map (fun p => OSPackage.mk p.1 p.2)) := by
    show (runLines (pkgBeginMark :: body ++ [pkgEndMark])).packages = _
    rw [h1, hendstep, hinit, hscan.1]
    simp
  refine ⟨hpk, ?_⟩
  rw [hpk, length_filterMap_eq_length_filter]
  congr 1
  apply List.filter_congr
  intro l hl
  rcases hbody l hl with hb | ha
  · simp [hb, show aptMatch ([] : List Char) = none from by decide]
  · have hne : trim l ≠ [] := by
      intro he
      rw [he] at ha
      exact absurd ha (by decide)
    simp [ha, List.isEmpty_iff, hne, Option.isSome_map]

/-- Witness for claim C9: a one line APT packages section extracts the
single capture pair of its grammar. -/
theorem claim9_witness :
    (parseLines (pkgBeginMark ::
        [String.toList "base-files/noble,now 13ubuntu10 amd64 [installed]"]
          ++ [pkgEndMark])).packages
      = [⟨String.toList "base-files", String.toList "13ubuntu10"⟩] := by
  have h := (claim9 [String.toList "base-files/noble,now 13ubuntu10 amd64 [installed]"]
    (by intro l hl; simp at hl; subst hl; right; decide)).1
  exact h.trans (by decide)

/-- The end-to-end example of the specification: an input with one APT
line and one RPM line in a packages section, two container image lines,
and an os-release section carrying the azurelinux ID yields two packages,
two images and the AzureLinux distro. -/
theorem spec_end_to_end :
    (parseLines
      [String.toList "=== Installed Packages Begin",
       String.toList "adduser/noble,now 3.137ubuntu1 all [installed,automatic]",
       String.toList "python3-cryptography-42.0.5-3.azl3.x86_64",
       String.toList "=== Installed Packages End",
       String.toList "containerd images pre-pulled:",
       String.toList "  - mcr.microsoft.com/oss/kubernetes/pause:3.6",
       String.toList "  - mcr.microsoft.com/containernetworking/azure-cni:v1.4.59",
       String.toList "=== os-release Begin",
       String.toList "ID=azurelinux",
       String.toList "=== os-release End"]).packages.length = 2
    ∧ (parseLines
      [String.toList "=== Installed Packages Begin",
       String.toList "adduser/noble,now 3.137ubuntu1 all [installed,automatic]",
       String.toList "python3-cryptography-42.0.5-3.azl3.x86_64",
       String.toList "=== Installed Packages End",
       String.toList "containerd images pre-pulled:",
       String.toList "  - mcr.microsoft.com/oss/kubernetes/pause:3.6",
       String.toList "  - mcr.microsoft.com/containernetworking/azure-cni:v1.4.59",
       String.toList "=== os-release Begin",
       String.toList "ID=azurelinux",
       String.toList "=== os-release End"]).containerImages.length = 2
    ∧ ((parseLines
      [String.toList "=== Installed Packages Begin",
       String.toList "adduser/noble,now 3.137ubuntu1 all [installed,automatic]",
       String.toList "python3-cryptography-42.0.5-3.azl3.x86_64",
       String.toList "=== Installed Packages End",
       String.toList "containerd images pre-pulled:",
       String.toList "  - mcr.microsoft.com/oss/kubernetes/pause:3.6",
       String.toList "  - mcr.microsoft.com/containernetworking/azure-cni:v1.4.59",
       String.toList "=== os-release Begin",
       String.toList "ID=azurelinux",
       String.toList "=== os-release End"]).osRelease.map (fun r => r.distro))
      = some DistroAzureLinux :=
  ⟨by decide, by decide, by decide⟩

end OvalModel
